import Mathlib

/-!
Verification of the asynchronous job orchestrator of Daily-AI-Images
(src/server/server.js): the in-memory job record store, the background
workflow `runBackgroundWorkflow`, the job status lifecycle and the
append-only log discipline.

The server is single-threaded cooperative JavaScript: a job record is
mutated only by synchronous blocks of its own background execution, and
other code (the status-polling GET handler) can observe the record only
at suspension points (`await`).  The embedding therefore models an
execution of `runBackgroundWorkflow` as the finite sequence of job
states observable at those suspension points, driven by an environment
that fixes the settlement outcome of every external asynchronous
operation (`none` models a promise that never settles).

Wall-clock time is modelled by a logical clock: the k-th log append of a
run happens at time `t0 + k`, where `t0` is the job creation time.
-/

namespace DailyAI

/-- The `status` field of a job record: `'running' | 'completed' | 'failed'`. -/
inductive Status where
  | running
  | completed
  | failed
deriving DecidableEq, Repr

/-- The `type` field of a log entry: `'info' | 'success' | 'warning' | 'error'`. -/
inductive LogType where
  | info
  | success
  | warning
  | error
deriving DecidableEq, Repr

/-- One entry of `job.logs`.  `updateJob` (server.js lines 515-525) always
sets all four fields; the final error push of the catch block
(lines 611-619) omits the `step` field, hence `step` is an `Option`. -/
structure LogEntry where
  timestamp : Nat
  message : String
  type : LogType
  step : Option Nat
deriving DecidableEq, Repr

/-- A job record, as initialised by `app.post('/api/jobs/start')`
(server.js lines 627-637). -/
structure Job where
  id : String
  status : Status
  createdAt : Nat
  updatedAt : Nat
  currentStep : Nat
  progress : Nat
  logs : List LogEntry
  error : Option String
deriving DecidableEq, Repr

/-- The record inserted by the start handler (server.js lines 627-637). -/
def initJob (id : String) (t : Nat) : Job :=
  { id := id, status := .running, createdAt := t, updatedAt := t,
    currentStep := 0, progress := 0, logs := [], error := none }

/-- The `updateJob` helper of `runBackgroundWorkflow` (server.js lines
515-525): sets `currentStep`, pushes a log entry carrying the `step`
field, and refreshes `updatedAt`. -/
def updateJob (t : Nat) (step : Nat) (msg : String) (ty : LogType) (j : Job) : Job :=
  { j with currentStep := step,
           logs := j.logs ++ [{ timestamp := t, message := msg, type := ty, step := some step }],
           updatedAt := t }

/-- The catch block of `runBackgroundWorkflow` (server.js lines 611-619):
sets `status = 'failed'`, sets `error`, and pushes a raw log entry that
has no `step` field and does not refresh `updatedAt`. -/
def failJob (t : Nat) (msg : String) (j : Job) : Job :=
  { j with status := .failed, error := some msg,
           logs := j.logs ++ [{ timestamp := t, message := "❌ Error: " ++ msg,
                                type := .error, step := none }] }

/-- Logical time of the next log append: the k-th appended entry of a run
gets timestamp `t0 + k`. -/
def tick (t0 : Nat) (j : Job) : Nat := t0 + j.logs.length + 1

/-- `updateJob` invoked at the current logical time. -/
def logStep (t0 : Nat) (step : Nat) (msg : String) (ty : LogType) (j : Job) : Job :=
  updateJob (tick t0 j) step msg ty j

/-- The catch block invoked at the current logical time. -/
def failStep (t0 : Nat) (msg : String) (j : Job) : Job :=
  failJob (tick t0 j) msg j

/-- The completion block of `runBackgroundWorkflow` (server.js lines
606-609): `status = 'completed'`, `progress = 100`, then a final
success log via `updateJob`. -/
def markCompleted (t0 : Nat) (j : Job) : Job :=
  logStep t0 4 "🎉 Workflow Completed!" .success
    { j with status := .completed, progress := 100 }

/-- Settlement outcome of awaiting one external asynchronous operation:
`none` models a promise that never settles; `some (.ok ())` a fulfilled
one; `some (.error e)` a rejection with message `e`. -/
abbrev OpOutcome := Option (Except String Unit)

/-- Per-upload settlement as reported by `Promise.allSettled`
(server.js line 595): `fulfilled` or `rejected`. -/
def isFulfilled : Except String Unit → Bool
  | .ok _ => true
  | .error _ => false

/-- The environment of one run of `runBackgroundWorkflow`: the settlement
outcomes of the external collaborator operations, the Etsy credential
gate `process.env.ETSY_ACCESS_TOKEN && process.env.ETSY_SHOP_ID`
(server.js line 563), and the publish stage body.  `publish` is the
outcome of the whole inner try of step 4: `some (.error m)` when the
dynamic import or a file read/parse throws with message `m`, and
`some (.ok rs)` when `Promise.allSettled` of the per-artifact uploads
settles with outcomes `rs`. -/
structure Env where
  scrape : OpOutcome
  analyze : OpOutcome
  generate : OpOutcome
  etsyConfigured : Bool
  publish : Option (Except String (List (Except String Unit)))

/-- Observable states of one run of `runBackgroundWorkflow`
(server.js lines 509-620), in order: the state at job creation, then the
state after each synchronous block, i.e. at each `await` suspension
point and at the end of the function.  A branch of the environment that
models a never-settling operation truncates the trace there: the job is
never touched again. -/
def workflowTrace (env : Env) (id : String) (t0 : Nat) : List Job :=
  let j0 := initJob id t0
  -- line 528: updateJob(1, '🔍 Searching for latest Design Trends...')
  let j1 := logStep t0 1 "🔍 Searching for latest Design Trends..." .info j0
  match env.scrape with
  | none => [j0, j1]
  | some sres =>
    -- lines 530-538: try scrapeDesignTrends; recoverable on failure
    let j2 :=
      match sres with
      | .ok _ => logStep t0 1 "✅ Trend Search completed" .success j1
      | .error _ =>
          logStep t0 1 "✅ Trend Search completed (Fallback)" .success
            (logStep t0 1 "⚠️ Trend API issue - Using fallback trends" .warning j1)
    -- line 541: updateJob(2, '🧠 Analyzing trends to generate ideas...')
    let j2i := logStep t0 2 "🧠 Analyzing trends to generate ideas..." .info j2
    match env.analyze with
    | none => [j0, j1, j2i]
    | some (.error e) =>
        -- line 548: throw new Error(`Analysis failed: ...`), caught at line 611
        [j0, j1, j2i, failStep t0 ("Analysis failed: " ++ e) j2i]
    | some (.ok _) =>
      -- line 546 then line 552
      let j3i := logStep t0 3 "🎨 Generating AI Images..." .info
                  (logStep t0 2 "✅ Ideas generated" .success j2i)
      match env.generate with
      | none => [j0, j1, j2i, j3i]
      | some (.error e) =>
          -- line 559: throw new Error(`Generation failed: ...`), caught at line 611
          [j0, j1, j2i, j3i, failStep t0 ("Generation failed: " ++ e) j3i]
      | some (.ok _) =>
        let j3s := logStep t0 3 "✅ Image generation completed" .success j3i
        if env.etsyConfigured then
          -- line 564: updateJob(4, '🛍️ Uploading designs to Etsy as draft listings...')
          let j4 := logStep t0 4 "🛍️ Uploading designs to Etsy as draft listings..." .info j3s
          match env.publish with
          | none => [j0, j1, j2i, j3i, j4]
          | some (.ok rs) =>
            -- lines 595-598: count fulfilled settlements, log the count
            let uploaded := (rs.filter isFulfilled).length
            let j5 := markCompleted t0
              (logStep t0 4 ("✅ Uploaded " ++ toString uploaded ++ " draft listing(s) to Etsy")
                .success j4)
            [j0, j1, j2i, j3i, j4, j5]
          | some (.error m) =>
            -- line 600: updateJob(4, `⚠️ Etsy upload skipped: ...`, 'warning')
            let j5 := markCompleted t0
              (logStep t0 4 ("⚠️ Etsy upload skipped: " ++ m) .warning j4)
            [j0, j1, j2i, j3i, j4, j5]
        else
          -- line 603: updateJob(4, '⏭️ Etsy upload skipped (ETSY_ACCESS_TOKEN not set)', 'info')
          let j5 := markCompleted t0
            (logStep t0 4 "⏭️ Etsy upload skipped (ETSY_ACCESS_TOKEN not set)" .info j3s)
          [j0, j1, j2i, j3i, j5]

/-- The job record left behind by a run of `runBackgroundWorkflow`
(its last observable state). -/
def runBackgroundWorkflow (env : Env) (id : String) (t0 : Nat) : Job :=
  (workflowTrace env id t0).getLastD (initJob id t0)

/-- `a`'s logs are an initial segment of `b`'s logs. -/
def logsPrefix (a b : Job) : Prop := b.logs.take a.logs.length = a.logs

/-- An environment whose discovery stage rejects and whose remaining
stages succeed with publish unconfigured. -/
def failedScrapeEnv : Env :=
  { scrape := some (Except.error "net down"), analyze := some (Except.ok ()),
    generate := some (Except.ok ()), etsyConfigured := false, publish := none }

/-- Twenty-one distinct job ids. -/
def idsW : List String :=
  ["j01", "j02", "j03", "j04", "j05", "j06", "j07", "j08", "j09", "j10",
   "j11", "j12", "j13", "j14", "j15", "j16", "j17", "j18", "j19", "j20", "j21"]

/-- `Promise.race` of an inner operation against a timer promise that
rejects with `Timeout of <timeoutMs>ms exceeded` once `timeoutMs`
elapses (the timeout wrappers of imageAnalyzer.js lines 279-291 and
imageGenerator.js lines 390-404).  `duration = none` models inner work
that never settles, so the timer wins; a settled inner operation wins
exactly when it finishes strictly before the timer fires. -/
def promiseRaceTimeout (timeoutMs : Nat) (duration : Option Nat)
    (inner : Except String Unit) : Except String Unit :=
  match duration with
  | none => Except.error ("Timeout of " ++ toString timeoutMs ++ "ms exceeded")
  | some d =>
      if d < timeoutMs then inner
      else Except.error ("Timeout of " ++ toString timeoutMs ++ "ms exceeded")

/-- The exported `analyzeAndGenerateIdeas` (imageAnalyzer.js lines
279-296): the internal analysis is raced against a 300000 ms timer, and
every rejection — the timeout included — is caught and replaced by the
sample-idea fallback, so the export only rejects when the fallback
itself throws. -/
def analyzeAndGenerateIdeas (duration : Option Nat) (inner : Except String Unit)
    (fallback : Except String Unit) : Except String Unit :=
  match promiseRaceTimeout 300000 duration inner with
  | Except.ok u => Except.ok u
  | Except.error _ => fallback

/-- An environment whose discovery operation never settles. -/
def hangEnv : Env :=
  { scrape := none, analyze := none, generate := none,
    etsyConfigured := false, publish := none }

/-- An environment whose synthesis stage rejects. -/
def failedAnalysisEnv : Env :=
  { scrape := some (Except.ok ()), analyze := some (Except.error "boom"),
    generate := none, etsyConfigured := false, publish := none }

/-! ### The job record store

`const jobs = new Map()` (server.js line 503).  A JavaScript `Map` keeps
its entries in insertion order, `set` on an existing key updates it in
place, `delete` removes the single entry with that key, and
`keys().next().value` is the first key in insertion order.  The store is
modelled as an association list ordered by insertion. -/

/-- The `jobs` map: an association list in insertion order. -/
abbrev Store := List (String × Job)

/-- `jobs.get(id)`. -/
def Store.get : Store → String → Option Job
  | [], _ => none
  | (k, v) :: rest, id => if k = id then some v else Store.get rest id

/-- `jobs.set(id, v)`: replace in place when the key exists, else append. -/
def Store.set : Store → String → Job → Store
  | [], id, v => [(id, v)]
  | (k, w) :: rest, id, v =>
      if k = id then (id, v) :: rest else (k, w) :: Store.set rest id v

/-- `jobs.delete(id)`: remove the (unique) entry with that key. -/
def Store.del : Store → String → Store
  | [], _ => []
  | (k, w) :: rest, id => if k = id then rest else (k, w) :: Store.del rest id

/-- The keys of the store, in insertion order. -/
def Store.keys (s : Store) : List String := s.map Prod.fst

/-- `app.post('/api/jobs/start')` (server.js lines 623-648), restricted to
its effect on the store: insert a fresh `running` record, then, when the
store now holds more than 20 entries, evict the entry whose key is
`jobs.keys().next().value` — the earliest-inserted key still stored. -/
def startRequest (s : Store) (id : String) (t : Nat) : Store :=
  let s1 := Store.set s id (initJob id t)
  if 20 < s1.length then
    match s1 with
    | [] => s1
    | (k, _) :: _ => Store.del s1 k
  else s1

/-- `app.get('/api/jobs/:id')` (server.js lines 651-660): `404` with
`'Job not found'` when the id is absent, else the record. -/
def fetchJob (s : Store) (id : String) : Except String Job :=
  match Store.get s id with
  | none => Except.error "Job not found"
  | some j => Except.ok j

/-- A sequence of start requests against an initially empty store,
one per id, all at creation time 0. -/
def createAll (ids : List String) : Store :=
  ids.foldl (fun s id => startRequest s id 0) []

/-- The store contents predicted for `createAll`: the 20 most recently
created ids, in creation order, each mapped to its initial record. -/
def windowOf (l : List String) : Store :=
  (l.drop (l.length - 20)).map fun i => (i, initJob i 0)

@[simp] theorem status_updateJob (t s : Nat) (m : String) (ty : LogType) (j : Job) :
    (updateJob t s m ty j).status = j.status := rfl

@[simp] theorem status_logStep (t0 s : Nat) (m : String) (ty : LogType) (j : Job) :
    (logStep t0 s m ty j).status = j.status := rfl

@[simp] theorem status_initJob (id : String) (t : Nat) :
    (initJob id t).status = .running := rfl

@[simp] theorem status_failStep (t0 : Nat) (m : String) (j : Job) :
    (failStep t0 m j).status = .failed := rfl

@[simp] theorem status_markCompleted (t0 : Nat) (j : Job) :
    (markCompleted t0 j).status = .completed := rfl

@[simp] theorem logs_initJob (id : String) (t : Nat) : (initJob id t).logs = [] := rfl

@[simp] theorem logs_updateJob (t s : Nat) (m : String) (ty : LogType) (j : Job) :
    (updateJob t s m ty j).logs
      = j.logs ++ [{ timestamp := t, message := m, type := ty, step := some s }] := rfl

@[simp] theorem logs_failJob (t : Nat) (m : String) (j : Job) :
    (failJob t m j).logs
      = j.logs ++ [{ timestamp := t, message := "❌ Error: " ++ m,
                     type := .error, step := none }] := rfl

set_option maxHeartbeats 1000000 in
/-- In every observable state before the last one, the job is still
`running`: a terminal status is only ever set by the very last
synchronous block of the run. -/
theorem running_before_last (env : Env) (id : String) (t0 : Nat) :
    ∀ x ∈ (workflowTrace env id t0).dropLast, x.status = .running := by
  rcases env with ⟨sc, an, ge, cfg, pub⟩
  rcases sc with _ | (es | _) <;>
  rcases an with _ | (ea | _) <;>
  rcases ge with _ | (eg | _) <;>
  rcases cfg <;>
  rcases pub with _ | (ep | rs) <;>
  simp [workflowTrace, List.dropLast]

@[simp] theorem error_updateJob (t s : Nat) (m : String) (ty : LogType) (j : Job) :
    (updateJob t s m ty j).error = j.error := rfl

@[simp] theorem error_logStep (t0 s : Nat) (m : String) (ty : LogType) (j : Job) :
    (logStep t0 s m ty j).error = j.error := rfl

@[simp] theorem error_initJob (id : String) (t : Nat) : (initJob id t).error = none := rfl

@[simp] theorem error_failStep (t0 : Nat) (m : String) (j : Job) :
    (failStep t0 m j).error = some m := rfl

@[simp] theorem error_markCompleted (t0 : Nat) (j : Job) :
    (markCompleted t0 j).error = j.error := rfl

@[simp] theorem updatedAt_updateJob (t s : Nat) (m : String) (ty : LogType) (j : Job) :
    (updateJob t s m ty j).updatedAt = t := rfl

@[simp] theorem updatedAt_failStep (t0 : Nat) (m : String) (j : Job) :
    (failStep t0 m j).updatedAt = j.updatedAt := rfl

@[simp] theorem updatedAt_initJob (id : String) (t : Nat) : (initJob id t).updatedAt = t := rfl

@[simp] theorem logs_logStep (t0 s : Nat) (m : String) (ty : LogType) (j : Job) :
    (logStep t0 s m ty j).logs
      = j.logs ++ [{ timestamp := tick t0 j, message := m, type := ty, step := some s }] := rfl

@[simp] theorem logs_failStep (t0 : Nat) (m : String) (j : Job) :
    (failStep t0 m j).logs
      = j.logs ++ [{ timestamp := tick t0 j, message := "❌ Error: " ++ m,
                     type := .error, step := none }] := rfl

@[simp] theorem logs_markCompleted (t0 : Nat) (j : Job) :
    (markCompleted t0 j).logs
      = j.logs ++ [{ timestamp := tick t0 j, message := "🎉 Workflow Completed!",
                     type := .success, step := some 4 }] := rfl

theorem logsPrefix_refl (a : Job) : logsPrefix a a := by
  simp [logsPrefix]

theorem logsPrefix_trans {a b c : Job} (h₁ : logsPrefix a b) (h₂ : logsPrefix b c) :
    logsPrefix a c := by
  unfold logsPrefix at *
  have hlen : a.logs.length ≤ b.logs.length := by
    have hl := congrArg List.length h₁
    simp [List.length_take] at hl
    omega
  calc c.logs.take a.logs.length
      = (c.logs.take b.logs.length).take a.logs.length := by
        rw [List.take_take, Nat.min_eq_left hlen]
    _ = a.logs := by rw [h₂, h₁]

instance : IsTrans Job logsPrefix := ⟨fun _ _ _ => logsPrefix_trans⟩

set_option maxHeartbeats 1000000 in
/-- Consecutive observable states only ever extend the log list. -/
theorem chain_logsPrefix (env : Env) (id : String) (t0 : Nat) :
    List.Chain' logsPrefix (workflowTrace env id t0) := by
  rcases env with ⟨sc, an, ge, cfg, pub⟩
  rcases sc with _ | (es | _) <;>
  rcases an with _ | (ea | _) <;>
  rcases ge with _ | (eg | _) <;>
  rcases cfg <;>
  rcases pub with _ | (ep | rs) <;>
  simp [workflowTrace, logsPrefix, List.chain'_cons, logStep, failStep, markCompleted]

theorem workflowTrace_ne_nil (env : Env) (id : String) (t0 : Nat) :
    workflowTrace env id t0 ≠ [] := by
  rcases env with ⟨sc, an, ge, cfg, pub⟩
  rcases sc with _ | (es | _) <;>
  rcases an with _ | (ea | _) <;>
  rcases ge with _ | (eg | _) <;>
  rcases cfg <;>
  rcases pub with _ | (ep | rs) <;>
  simp [workflowTrace]

theorem Store.keys_map_init (l : List String) :
    Store.keys (l.map fun i => (i, initJob i 0)) = l := by
  induction l with
  | nil => rfl
  | cons x rest ih => simpa [Store.keys] using ih

theorem Store.set_of_not_mem (s : Store) (id : String) (v : Job)
    (h : id ∉ Store.keys s) : Store.set s id v = s ++ [(id, v)] := by
  induction s with
  | nil => rfl
  | cons p rest ih =>
    cases p with
    | mk k w =>
      simp only [Store.keys, List.map_cons, List.mem_cons, not_or] at h
      have hne : k ≠ id := fun hh => h.1 hh.symm
      simp only [Store.set, if_neg hne, List.cons_append]
      rw [ih (by simpa [Store.keys] using h.2)]

theorem Store.get_of_not_mem (s : Store) (id : String)
    (h : id ∉ Store.keys s) : Store.get s id = none := by
  induction s with
  | nil => rfl
  | cons p rest ih =>
    cases p with
    | mk k w =>
      simp only [Store.keys, List.map_cons, List.mem_cons, not_or] at h
      have hne : k ≠ id := fun hh => h.1 hh.symm
      simp only [Store.get, if_neg hne]
      exact ih (by simpa [Store.keys] using h.2)

theorem Store.get_map_init_of_mem (l : List String) (id : String) (h : id ∈ l) :
    Store.get (l.map fun i => (i, initJob i 0)) id ≠ none := by
  induction l with
  | nil => simp at h
  | cons x rest ih =>
    by_cases hx : x = id
    · simp [Store.get, hx]
    · rcases List.mem_cons.mp h with h | h
      · exact absurd h.symm hx
      · simp only [List.map_cons, Store.get, if_neg hx]
        exact ih h

theorem createAll_eq_window (ids : List String) (h : ids.Nodup) :
    createAll ids = windowOf ids := by
  induction ids using List.reverseRecOn with
  | nil => rfl
  | append_singleton l a ih =>
    have hsplit : l.Nodup ∧ a ∉ l := by
      simp [List.nodup_append] at h
      exact ⟨h.1, h.2⟩
    have hmain : createAll (l ++ [a]) = startRequest (createAll l) a 0 := by
      simp [createAll]
    rw [hmain, ih hsplit.1]
    have hnotk : a ∉ Store.keys (windowOf l) := by
      intro hmem
      rw [windowOf, Store.keys_map_init] at hmem
      exact hsplit.2 (List.mem_of_mem_drop hmem)
    have hs1 : Store.set (windowOf l) a (initJob a 0) = windowOf l ++ [(a, initJob a 0)] :=
      Store.set_of_not_mem _ _ _ hnotk
    rcases Nat.lt_or_ge l.length 20 with hl | hl
    · -- the store still fits: no eviction
      have hwlen : (windowOf l).length = l.length := by
        simp [windowOf]; omega
      have hlen : ¬ 20 < (windowOf l ++ [(a, initJob a 0)]).length := by
        simp [hwlen]; omega
      have hstart : startRequest (windowOf l) a 0 = windowOf l ++ [(a, initJob a 0)] := by
        unfold startRequest
        simp only [hs1, if_neg hlen]
      rw [hstart]
      have hzero : l.length - 20 = 0 := by omega
      have hzero' : l.length - 19 = 0 := by omega
      simp [windowOf, hzero, hzero']
    · -- 21st record: the earliest-inserted entry is evicted
      have hlen20 : (windowOf l).length = 20 := by simp [windowOf]; omega
      obtain ⟨bk, bv, t, hbt⟩ : ∃ bk bv t, windowOf l = (bk, bv) :: t := by
        cases hw : windowOf l with
        | nil => rw [hw] at hlen20; simp at hlen20
        | cons b tl => exact ⟨b.1, b.2, tl, by cases b; rfl⟩
      have htlen : t.length = 19 := by rw [hbt] at hlen20; simpa using hlen20
      have hlen : 20 < ((bk, bv) :: (t ++ [(a, initJob a 0)])).length := by
        simp [htlen]
      have hstart : startRequest (windowOf l) a 0 = t ++ [(a, initJob a 0)] := by
        unfold startRequest
        rw [hbt] at hs1 ⊢
        simp only [hs1, List.cons_append]
        rw [if_pos hlen]
        simp [Store.del]
      rw [hstart]
      have ht : t = ((l.drop (l.length - 20)).tail).map fun i => (i, initJob i 0) := by
        have h2 := congrArg List.tail hbt
        rw [windowOf, ← List.map_tail] at h2
        simpa using h2.symm
      rw [ht, List.tail_drop]
      have harith : (l ++ [a]).length - 20 = (l.length - 20) + 1 := by simp; omega
      rw [windowOf, harith, List.drop_append_of_le_length (by omega)]
      simp

/-! ### The claims -/

/-- C1: For every job, the status field takes the initial value `running`
and is changed at most once, to either `completed` or `failed`; the
sequence of status values observed over the job's lifetime is a
subsequence of `[running, completed]` or of `[running, failed]`, and
`completed` and `failed` never both occur for the same job. -/
theorem C1_status_lifecycle (env : Env) (id : String) (t0 : Nat) :
    (∃ n r, (workflowTrace env id t0).map Job.status = List.replicate n Status.running ++ r ∧
       (r = [] ∨ r = [Status.completed] ∨ r = [Status.failed])) ∧
    ¬ (Status.completed ∈ (workflowTrace env id t0).map Job.status ∧
       Status.failed ∈ (workflowTrace env id t0).map Job.status) := by
  have hne : workflowTrace env id t0 ≠ [] := workflowTrace_ne_nil env id t0
  have hrun : ∀ x ∈ (workflowTrace env id t0).dropLast, x.status = .running :=
    running_before_last env id t0
  have hdecomp : (workflowTrace env id t0).dropLast ++ [(workflowTrace env id t0).getLast hne]
      = workflowTrace env id t0 := List.dropLast_append_getLast hne
  have hmap : (workflowTrace env id t0).map Job.status
      = ((workflowTrace env id t0).dropLast.map Job.status)
        ++ [((workflowTrace env id t0).getLast hne).status] := by
    conv_lhs => rw [← hdecomp]
    simp
  have hrep : (workflowTrace env id t0).dropLast.map Job.status
      = List.replicate ((workflowTrace env id t0).dropLast.length) Status.running := by
    rw [List.eq_replicate_iff]
    refine ⟨by simp, ?_⟩
    intro b hb
    rcases List.mem_map.mp hb with ⟨x, hx, rfl⟩
    exact hrun x hx
  have hmain : ∃ n r, (workflowTrace env id t0).map Job.status
      = List.replicate n Status.running ++ r ∧
      (r = [] ∨ r = [Status.completed] ∨ r = [Status.failed]) := by
    cases hstat : ((workflowTrace env id t0).getLast hne).status with
    | running =>
        refine ⟨(workflowTrace env id t0).dropLast.length + 1, [], ?_, Or.inl rfl⟩
        rw [hmap, hrep, hstat, List.replicate_succ', List.append_nil]
    | completed =>
        refine ⟨(workflowTrace env id t0).dropLast.length, [Status.completed], ?_,
          Or.inr (Or.inl rfl)⟩
        rw [hmap, hrep, hstat]
    | failed =>
        refine ⟨(workflowTrace env id t0).dropLast.length, [Status.failed], ?_,
          Or.inr (Or.inr rfl)⟩
        rw [hmap, hrep, hstat]
  refine ⟨hmain, ?_⟩
  rintro ⟨hc, hf⟩
  obtain ⟨n, r, heq, hr⟩ := hmain
  rw [heq] at hc hf
  have hc' : Status.completed ∈ r := by
    rcases List.mem_append.mp hc with h | h
    · exact absurd (List.eq_of_mem_replicate h) (by simp)
    · exact h
  have hf' : Status.failed ∈ r := by
    rcases List.mem_append.mp hf with h | h
    · exact absurd (List.eq_of_mem_replicate h) (by simp)
    · exact h
  rcases hr with rfl | rfl | rfl
  · simp at hc'
  · simp at hf'
  · simp at hc'

/-- C2: For every job whose synthesis stage (stage 2) operation rejects,
the job ends with status `failed`, a non-empty `error` field, a final
log entry of type `error`, and no log entry carries a step greater
than 2 (stages 3 and 4 never execute). -/
theorem C2_synthesis_fatal (env : Env) (id : String) (t0 : Nat)
    (s : Except String Unit) (e : String)
    (hs : env.scrape = some s) (ha : env.analyze = some (Except.error e)) :
    (runBackgroundWorkflow env id t0).status = Status.failed ∧
    (∃ msg, (runBackgroundWorkflow env id t0).error = some msg ∧ msg ≠ "") ∧
    (∃ last, (runBackgroundWorkflow env id t0).logs.getLast? = some last ∧
       last.type = LogType.error) ∧
    (∀ en ∈ (runBackgroundWorkflow env id t0).logs, ∀ k, en.step = some k → k ≤ 2) := by
  have hne : ("Analysis failed: " ++ e) ≠ "" := by
    intro hcontra
    have hlen := congrArg String.length hcontra
    simp [String.length_append] at hlen
    exact absurd hlen.1 (by decide)
  rcases env with ⟨sc, an, ge, cfg, pub⟩
  obtain rfl : sc = some s := hs
  obtain rfl : an = some (Except.error e) := ha
  rcases s with es | u <;>
    simp [runBackgroundWorkflow, workflowTrace, hne, List.getLastD]

/-- C3: For every job whose discovery stage (stage 1) operation rejects,
the job's logs contain a `warning` entry for stage 1 immediately
followed by a `success` entry for stage 1, stage 2 still begins
(an `info` entry with step 2 exists), and the job does not end `failed`
when the remaining stage operations succeed. -/
theorem C3_discovery_recoverable (env : Env) (id : String) (t0 : Nat) (m : String)
    (hs : env.scrape = some (Except.error m)) :
    (∃ w, (runBackgroundWorkflow env id t0).logs[1]? = some w ∧
       w.type = LogType.warning ∧ w.step = some 1 ∧
       w.message = "⚠️ Trend API issue - Using fallback trends") ∧
    (∃ s, (runBackgroundWorkflow env id t0).logs[2]? = some s ∧
       s.type = LogType.success ∧ s.step = some 1) ∧
    (∃ en ∈ (runBackgroundWorkflow env id t0).logs,
       en.step = some 2 ∧ en.type = LogType.info) ∧
    (env.analyze = some (Except.ok ()) → env.generate = some (Except.ok ()) →
       (runBackgroundWorkflow env id t0).status ≠ Status.failed) := by
  rcases env with ⟨sc, an, ge, cfg, pub⟩
  obtain rfl : sc = some (Except.error m) := hs
  rcases an with _ | (ea | u) <;>
  rcases ge with _ | (eg | v) <;>
  rcases cfg <;>
  rcases pub with _ | (ep | rs) <;>
    simp [runBackgroundWorkflow, workflowTrace, List.getLastD]

/-- Witness for C1 at a concrete completed run. -/
theorem C1_status_lifecycle_witness :
    (∃ n r, (workflowTrace failedScrapeEnv "job_1" 0).map Job.status
        = List.replicate n Status.running ++ r ∧
       (r = [] ∨ r = [Status.completed] ∨ r = [Status.failed])) ∧
    ¬ (Status.completed ∈ (workflowTrace failedScrapeEnv "job_1" 0).map Job.status ∧
       Status.failed ∈ (workflowTrace failedScrapeEnv "job_1" 0).map Job.status) :=
  C1_status_lifecycle failedScrapeEnv "job_1" 0

/-- Witness for C2 at a concrete run whose synthesis stage rejects. -/
theorem C2_synthesis_fatal_witness :
    (runBackgroundWorkflow failedAnalysisEnv "job_1" 0).status = Status.failed ∧
    (∃ msg, (runBackgroundWorkflow failedAnalysisEnv "job_1" 0).error = some msg ∧ msg ≠ "") ∧
    (∃ last, (runBackgroundWorkflow failedAnalysisEnv "job_1" 0).logs.getLast? = some last ∧
       last.type = LogType.error) ∧
    (∀ en ∈ (runBackgroundWorkflow failedAnalysisEnv "job_1" 0).logs,
       ∀ k, en.step = some k → k ≤ 2) :=
  C2_synthesis_fatal failedAnalysisEnv "job_1" 0 (Except.ok ()) "boom" rfl rfl

/-- Witness for C3 at a concrete run whose discovery stage rejects and
whose remaining stages succeed. -/
theorem C3_discovery_recoverable_witness :
    (∃ w, (runBackgroundWorkflow failedScrapeEnv "job_1" 0).logs[1]? = some w ∧
       w.type = LogType.warning ∧ w.step = some 1 ∧
       w.message = "⚠️ Trend API issue - Using fallback trends") ∧
    (∃ s, (runBackgroundWorkflow failedScrapeEnv "job_1" 0).logs[2]? = some s ∧
       s.type = LogType.success ∧ s.step = some 1) ∧
    (∃ en ∈ (runBackgroundWorkflow failedScrapeEnv "job_1" 0).logs,
       en.step = some 2 ∧ en.type = LogType.info) ∧
    (runBackgroundWorkflow failedScrapeEnv "job_1" 0).status ≠ Status.failed :=
  have h := C3_discovery_recoverable failedScrapeEnv "job_1" 0 "net down" rfl
  ⟨h.1, h.2.1, h.2.2.1, h.2.2.2 rfl rfl⟩

/-- C4: The Job Record Store retains at most 20 jobs: when the 21st job
is created, the job created earliest among those still stored is
evicted; a status fetch for the evicted id then returns the not-found
result, while each of the 20 most recently created ids remains
retrievable. -/
theorem C4_retention (ids : List String) (hnd : ids.Nodup) (hlen : ids.length = 21) :
    (createAll ids).length = 20 ∧
    fetchJob (createAll ids) ids.headI = Except.error "Job not found" ∧
    (∀ id ∈ ids.tail, ∃ j, fetchJob (createAll ids) id = Except.ok j) := by
  rcases ids with _ | ⟨x, t⟩
  · simp at hlen
  · have hnd' := List.nodup_cons.mp hnd
    have htlen : t.length = 20 := by simpa using hlen
    have hwin : createAll (x :: t) = t.map fun i => (i, initJob i 0) := by
      rw [createAll_eq_window _ hnd, windowOf]
      have h1 : (x :: t).length - 20 = 1 := by simp [htlen]
      rw [h1, List.drop_one]
      rfl
    refine ⟨?_, ?_, ?_⟩
    · rw [hwin]; simpa using htlen
    · have hget : Store.get (t.map fun i => (i, initJob i 0)) x = none := by
        apply Store.get_of_not_mem
        rw [Store.keys_map_init]
        exact hnd'.1
      simp [hwin, fetchJob, List.headI, hget]
    · intro id hid
      have hid' : id ∈ t := hid
      have hne := Store.get_map_init_of_mem t id hid'
      rw [hwin]
      cases hget : Store.get (t.map fun i => (i, initJob i 0)) id with
      | none => exact absurd hget hne
      | some j => exact ⟨j, by simp [fetchJob, hget]⟩

/-- Witness for C4 at twenty-one concrete distinct ids. -/
theorem C4_retention_witness :
    idsW.Nodup ∧ idsW.length = 21 ∧
    ((createAll idsW).length = 20 ∧
     fetchJob (createAll idsW) idsW.headI = Except.error "Job not found" ∧
     (∀ id ∈ idsW.tail, ∃ j, fetchJob (createAll idsW) id = Except.ok j)) :=
  ⟨by decide, by decide, C4_retention idsW (by decide) (by decide)⟩

/-- C5 is false on the code: `runBackgroundWorkflow` races nothing
against a timer.  With a discovery operation that never settles, the
run ends with the job still `running` in every observable state — the
job is never marked `failed` with a timeout message; it remains
`running` indefinitely. -/
theorem C5_counterexample :
    (runBackgroundWorkflow hangEnv "job_1" 0).status = Status.running ∧
    ∀ x ∈ workflowTrace hangEnv "job_1" 0, x.status = Status.running := by
  constructor
  · rfl
  · intro x hx
    simp [workflowTrace, hangEnv] at hx
    rcases hx with rfl | rfl <;> rfl

/-- C5 amended: the orchestrator does not race the pipeline against a
timer — a stage operation that never settles leaves the job in status
`running` indefinitely.  The bounded-duration timers live inside the
synthesis/generation collaborators, which catch their own timeout and
fall back successfully, so when the 300000 ms analysis timer fires (and
the fallback succeeds) the job completes instead of being marked
`failed` with a timeout-specific message. -/
theorem C5_no_pipeline_timeout (id : String) (t0 : Nat) :
    (∀ env : Env, env.scrape = none →
       (runBackgroundWorkflow env id t0).status = Status.running) ∧
    (∀ env : Env, ∀ r : Except String Unit,
       env.scrape = some (Except.ok ()) →
       env.analyze = some (analyzeAndGenerateIdeas none r (Except.ok ())) →
       env.generate = some (Except.ok ()) →
       env.etsyConfigured = false →
       (runBackgroundWorkflow env id t0).status = Status.completed ∧
       (runBackgroundWorkflow env id t0).error = none) := by
  constructor
  · rintro ⟨sc, an, ge, cfg, pub⟩ hs
    obtain rfl : sc = none := hs
    rfl
  · rintro ⟨sc, an, ge, cfg, pub⟩ r hs ha hg hc
    obtain rfl : sc = some (Except.ok ()) := hs
    obtain rfl : an = some (analyzeAndGenerateIdeas none r (Except.ok ())) := ha
    obtain rfl : ge = some (Except.ok ()) := hg
    obtain rfl : cfg = false := hc
    simp [runBackgroundWorkflow, workflowTrace, analyzeAndGenerateIdeas,
      promiseRaceTimeout, List.getLastD]

/-- Witness for C5 amended: a hung discovery leaves the job `running`;
an analysis whose internal work never settles (timer fires, fallback
succeeds) still lets the job complete. -/
theorem C5_no_pipeline_timeout_witness :
    (runBackgroundWorkflow hangEnv "job_1" 7).status = Status.running ∧
    (runBackgroundWorkflow
        ⟨some (Except.ok ()),
         some (analyzeAndGenerateIdeas none (Except.error "never settles") (Except.ok ())),
         some (Except.ok ()), false, none⟩ "job_1" 7).status = Status.completed :=
  ⟨(C5_no_pipeline_timeout "job_1" 7).1 hangEnv rfl,
   ((C5_no_pipeline_timeout "job_1" 7).2 _ (Except.error "never settles")
      rfl rfl rfl rfl).1⟩

/-- C6: once a terminal status (`completed` or `failed`) has been set on
a job record, no field of the record is ever mutated again: every
observable state from that point on is identical. -/
theorem C6_terminal_frozen (env : Env) (id : String) (t0 : Nat) (i j : Nat)
    (hi : i < (workflowTrace env id t0).length)
    (hj : j < (workflowTrace env id t0).length) (hij : i ≤ j)
    (hterm : ((workflowTrace env id t0)[i]).status ≠ Status.running) :
    (workflowTrace env id t0)[j] = (workflowTrace env id t0)[i] := by
  have hrun : ∀ k (hk : k < (workflowTrace env id t0).length),
      k + 1 < (workflowTrace env id t0).length →
      ((workflowTrace env id t0)[k]).status = Status.running := by
    intro k hk hk1
    have hdl : k < (workflowTrace env id t0).dropLast.length := by
      rw [List.length_dropLast]; omega
    have heq : (workflowTrace env id t0).dropLast[k] = (workflowTrace env id t0)[k] :=
      List.getElem_dropLast _ _ hdl
    rw [← heq]
    exact running_before_last env id t0 _ (List.getElem_mem hdl)
  have hi_last : i + 1 = (workflowTrace env id t0).length := by
    by_contra hcon
    exact hterm (hrun i hi (by omega))
  have hji : j = i := by omega
  subst hji
  rfl

/-- Witness for C6: in a concrete completed run, the terminal state is
the last one (index 4) and the state at any later observation point —
here index 4 again — is identical to it. -/
theorem C6_terminal_frozen_witness :
    (((workflowTrace failedScrapeEnv "job_1" 0).get ⟨4, by decide⟩).status
        ≠ Status.running) ∧
    (workflowTrace failedScrapeEnv "job_1" 0).get ⟨4, by decide⟩
      = (workflowTrace failedScrapeEnv "job_1" 0).get ⟨4, by decide⟩ :=
  ⟨by decide,
   C6_terminal_frozen failedScrapeEnv "job_1" 0 4 4 (by decide) (by decide)
     (by decide) (by decide)⟩

/-- C7: the logs of a job are append-only — across any two observable
states of the run, the earlier logs are an initial segment of the later
logs, and in particular the logs length is non-decreasing across
successive status fetches. -/
theorem C7_logs_append_only (env : Env) (id : String) (t0 : Nat) (i j : Nat)
    (hi : i < (workflowTrace env id t0).length)
    (hj : j < (workflowTrace env id t0).length) (hij : i ≤ j) :
    logsPrefix ((workflowTrace env id t0)[i]) ((workflowTrace env id t0)[j]) ∧
    ((workflowTrace env id t0)[i]).logs.length ≤ ((workflowTrace env id t0)[j]).logs.length := by
  have hpref : logsPrefix ((workflowTrace env id t0)[i]) ((workflowTrace env id t0)[j]) := by
    rcases Nat.lt_or_ge i j with hlt | hge
    · have hpw : List.Pairwise logsPrefix (workflowTrace env id t0) :=
        List.chain'_iff_pairwise.mp (chain_logsPrefix env id t0)
      exact List.pairwise_iff_get.mp hpw ⟨i, hi⟩ ⟨j, hj⟩ hlt
    · have hji : i = j := by omega
      subst hji
      exact logsPrefix_refl _
  refine ⟨hpref, ?_⟩
  have := congrArg List.length hpref
  simp [List.length_take] at this
  omega

/-- Witness for C7 at a concrete run and indices 0 and 1. -/
theorem C7_logs_append_only_witness :
    logsPrefix ((workflowTrace hangEnv "job_1" 0).get ⟨0, by decide⟩)
      ((workflowTrace hangEnv "job_1" 0).get ⟨1, by decide⟩) ∧
    ((workflowTrace hangEnv "job_1" 0).get ⟨0, by decide⟩).logs.length
      ≤ ((workflowTrace hangEnv "job_1" 0).get ⟨1, by decide⟩).logs.length := by
  simpa using C7_logs_append_only hangEnv "job_1" 0 0 1 (by decide) (by decide) (by decide)

/-- C8: when the publish stage runs over artifacts whose individual
uploads may fail, every upload settlement is still counted — the stage
appends a `success` log entry reporting the number of fulfilled
uploads, and the job completes rather than failing because of
individual upload rejections. -/
theorem C8_publish_partial_failures (env : Env) (id : String) (t0 : Nat)
    (s : Except String Unit) (rs : List (Except String Unit))
    (hs : env.scrape = some s)
    (ha : env.analyze = some (Except.ok ()))
    (hg : env.generate = some (Except.ok ()))
    (hc : env.etsyConfigured = true)
    (hp : env.publish = some (Except.ok rs)) :
    (runBackgroundWorkflow env id t0).status = Status.completed ∧
    (∃ en ∈ (runBackgroundWorkflow env id t0).logs,
       en.type = LogType.success ∧ en.step = some 4 ∧
       en.message = "✅ Uploaded " ++ toString (rs.filter isFulfilled).length
         ++ " draft listing(s) to Etsy") := by
  rcases env with ⟨sc, an, ge, cfg, pub⟩
  obtain rfl : sc = some s := hs
  obtain rfl : an = some (Except.ok ()) := ha
  obtain rfl : ge = some (Except.ok ()) := hg
  obtain rfl : cfg = true := hc
  obtain rfl : pub = some (Except.ok rs) := hp
  rcases s with es | u <;>
    simp [runBackgroundWorkflow, workflowTrace, List.getLastD]

/-- Witness for C8: three artifacts, one upload rejected — the stage
logs `Uploaded 2 draft listing(s)` and the job completes. -/
theorem C8_publish_partial_failures_witness :
    (runBackgroundWorkflow
        ⟨some (Except.ok ()), some (Except.ok ()), some (Except.ok ()), true,
         some (Except.ok [Except.ok (), Except.error "upload rejected", Except.ok ()])⟩
        "job_1" 0).status = Status.completed ∧
    (∃ en ∈ (runBackgroundWorkflow
        ⟨some (Except.ok ()), some (Except.ok ()), some (Except.ok ()), true,
         some (Except.ok [Except.ok (), Except.error "upload rejected", Except.ok ()])⟩
        "job_1" 0).logs,
       en.type = LogType.success ∧ en.step = some 4 ∧
       en.message = "✅ Uploaded 2 draft listing(s) to Etsy") := by
  have h := C8_publish_partial_failures
    ⟨some (Except.ok ()), some (Except.ok ()), some (Except.ok ()), true,
     some (Except.ok [Except.ok (), Except.error "upload rejected", Except.ok ()])⟩
    "job_1" 0 (Except.ok ()) [Except.ok (), Except.error "upload rejected", Except.ok ()]
    rfl rfl rfl rfl rfl
  simpa [isFulfilled] using h

/-- C9 is false on the code: in a failed run, the final error log entry
is appended (at logical time 4 here) without refreshing `updatedAt`,
which keeps the value (3) set by the last `updateJob` call. -/
theorem C9_counterexample :
    ((runBackgroundWorkflow failedAnalysisEnv "job_1" 0).logs.map
        LogEntry.timestamp).getLast? = some 4 ∧
    (runBackgroundWorkflow failedAnalysisEnv "job_1" 0).updatedAt = 3 := by
  constructor <;> rfl

/-- C9 amended: every log append performed through the `updateJob`
helper refreshes `updatedAt` to the append time, but the final error
log push of the failure path appends its entry without refreshing
`updatedAt`, leaving it at the value of the last `updateJob` call. -/
theorem C9_updatedAt_policy (t s : Nat) (m : String) (ty : LogType) (j : Job) :
    (updateJob t s m ty j).updatedAt = t ∧
    (failJob t m j).updatedAt = j.updatedAt ∧
    (failJob t m j).logs.length = j.logs.length + 1 := by
  refine ⟨rfl, rfl, ?_⟩
  simp

/-- C10 is false on the code: the final error entry of a failed job has
no `step` field (the catch block's raw `logs.push` omits it). -/
theorem C10_counterexample :
    ((runBackgroundWorkflow failedAnalysisEnv "job_1" 0).logs.map
        LogEntry.step).getLast? = some none := by
  rfl

/-- C10 amended: every log entry appended through `updateJob` has the
full shape with an integer `step`, but the final error entry of a
failed job carries `timestamp`, `message` and `type` only — its `step`
field is absent. -/
theorem C10_log_entry_shape (t s : Nat) (m : String) (ty : LogType) (j : Job) :
    (updateJob t s m ty j).logs.getLast?
      = some { timestamp := t, message := m, type := ty, step := some s } ∧
    (failJob t m j).logs.getLast?
      = some { timestamp := t, message := "❌ Error: " ++ m,
               type := LogType.error, step := none } := by
  constructor <;> simp [List.getLast?_concat]

end DailyAI
